import Mathlib

/-!
Shallow embedding of `local-crm/app.py`: a FastAPI application that uses an
xlsx workbook (via openpyxl) as an ad-hoc customer table.  Worksheet cells are
modelled by `CellVal` (a cell is absent/`None`, holds a string, or holds an
integer), rows by lists of cells carrying a number format, the workbook by the
optional `Customers` sheet, and the on-disk file by `Option Workbook`.  Each
HTTP handler becomes a pure function from the file state (plus form inputs and
the current formatted time) to a result, the new file state, and the number of
`wb.save` calls it performed.
-/

/-- A worksheet cell value: `none` models Python `None` (unset cell),
`str` a text cell, `int` a numeric cell. -/
inductive CellVal where
  | none
  | str (s : String)
  | int (n : Int)
deriving DecidableEq

/-- Python `str(v)` on a cell value (`str(None) = "None"`). -/
def pyStr : CellVal → String
  | CellVal.none => "None"
  | CellVal.str s => s
  | CellVal.int n => toString n

/-- The emptiness test used by the handlers: `v is None or v == ""`. -/
def cellIsBlank (v : CellVal) : Bool :=
  v == CellVal.none || v == CellVal.str ""

/-- A worksheet cell: a value plus its number format (openpyxl default
format is `"General"`; the app sets `"@"` on identifier cells). -/
structure Cell where
  val : CellVal
  fmt : String
deriving DecidableEq

abbrev Row := List Cell

/-- `ws.cell(r, c).value` for a row, 1-based column `c`; absent cells read
as `None`. -/
def getCellVal (row : Row) (c : Nat) : CellVal :=
  ((row.get? (c - 1)).map Cell.val).getD CellVal.none

/-- The number format of the 1-based column `c` of a row (default
`"General"` when the cell does not exist). -/
def getCellFmt (row : Row) (c : Nat) : String :=
  ((row.get? (c - 1)).map Cell.fmt).getD "General"

/-- `ws[f"A{r}"].number_format = "@"`: force the first cell of the row to
text format, creating it (with value `None`) when absent. -/
def setFmtA : Row → Row
  | [] => [⟨CellVal.none, "@"⟩]
  | c :: r => ⟨c.val, "@"⟩ :: r

/-- `for c, v in enumerate(values, start=1): ws.cell(rownum, c).value = v`:
overwrite the first `values.length` cells of the row with the given values,
keeping each existing cell's number format and creating default-format cells
past the end of the row. -/
def overwriteRow : Row → List CellVal → Row
  | row, [] => row
  | c :: row, v :: vs => ⟨v, c.fmt⟩ :: overwriteRow row vs
  | [], v :: vs => ⟨v, "General"⟩ :: overwriteRow [] vs

/-- `ws.append(values)`: the freshly appended row, all cells default format. -/
def freshRow (vs : List CellVal) : Row :=
  vs.map (fun v => ⟨v, "General"⟩)

/-- The values of columns 1..11 of a row (the slice the app reads and
writes). -/
def rowVals (row : Row) : List CellVal :=
  (List.range 11).map (fun i => getCellVal row (i + 1))

/-- Python `str.strip()`: drop whitespace from both ends. -/
def pyStrip (s : String) : String :=
  ⟨(((s.data.dropWhile Char.isWhitespace).reverse.dropWhile Char.isWhitespace).reverse)⟩

/-- Python `int(str)`: strip whitespace, optional sign, a non-empty digit
run; `ValueError` (here `Option.none`) otherwise. -/
def digitsVal (cs : List Char) : Nat :=
  cs.foldl (fun a c => a * 10 + (c.toNat - '0'.toNat)) 0

def parseDigits (cs : List Char) : Option Nat :=
  if cs ≠ [] ∧ cs.all Char.isDigit then some (digitsVal cs) else Option.none

def pyIntParse (s : String) : Option Int :=
  match (pyStrip s).data with
  | '+' :: rest => (parseDigits rest).map Int.ofNat
  | '-' :: rest => (parseDigits rest).map (fun n => -(Int.ofNat n : Int))
  | cs => (parseDigits cs).map Int.ofNat

/-- Python `str.zfill(w)` (sign-aware left padding with `'0'`). -/
def pyZfill (s : String) (w : Nat) : String :=
  if w ≤ s.length then s
  else
    match s.data with
    | '+' :: rest => ⟨'+' :: List.replicate (w - s.length) '0' ++ rest⟩
    | '-' :: rest => ⟨'-' :: List.replicate (w - s.length) '0' ++ rest⟩
    | cs => ⟨List.replicate (w - s.length) '0' ++ cs⟩

/-- The fixed header (HEADERS in app.py): 11 field names. -/
def HEADERS : List String :=
  ["CustomerID", "利用者名称", "利用開始日", "介護区分", "連絡先（電話）", "住所",
   "メールアドレス", "担当者", "注意事項", "タイムスタンプ", "データ編集リンク"]

/-- The header row as appended by `ws.append(HEADERS)`. -/
def headerRow : Row := freshRow (HEADERS.map CellVal.str)

/-- The workbook: only the `Customers` sheet matters to the app; `none`
means the sheet is absent from the workbook. The sheet is its full list of
rows, row 1 (index 0) being the header position. -/
structure Workbook where
  customers : Option (List Row)
deriving DecidableEq

/-- Result of `ensure_workbook`: the in-memory workbook handed to the
caller, the on-disk file state after the call, and how many `wb.save`
calls happened inside it. -/
structure EnsureOut where
  wb : Workbook
  file : Option Workbook
  saves : Nat
deriving DecidableEq

/-- `ensure_workbook()`: load the file if it exists (creating the
`Customers` sheet with just the header in memory if absent — not yet
saved); otherwise create a new workbook whose single sheet holds only the
header and save it. -/
def ensure_workbook : Option Workbook → EnsureOut
  | some wb =>
    match wb.customers with
    | some _ => ⟨wb, some wb, 0⟩
    | Option.none => ⟨⟨some [headerRow]⟩, some wb, 0⟩
  | Option.none => ⟨⟨some [headerRow]⟩, some ⟨some [headerRow]⟩, 1⟩

/-- `wb[SHEET_NAME]` after `ensure_workbook` (the sheet always exists
then; `[]` is unreachable default). -/
def wsOf (wb : Workbook) : List Row :=
  wb.customers.getD []

/-- `next_customer_id(ws)`: fold over column 1 of the data rows
(rows 2..max_row), skipping blank cells, parsing `int(str(v))` and keeping
the running maximum (parse failures are skipped); result is
`str(max_num + 1).zfill(4)`. -/
def next_customer_id (ws : List Row) : String :=
  let max_num : Int := (ws.drop 1).foldl
    (fun m row =>
      let v := getCellVal row 1
      if v = CellVal.none ∨ v = CellVal.str "" then m
      else
        match pyIntParse (pyStr v) with
        | some n => if n > m then n else m
        | Option.none => m)
    0
  pyZfill (toString (max_num + 1)) 4

/-- The record dictionary `{HEADERS[c-1]: ws.cell(r, c).value for c in 1..11}`. -/
def rowDict (row : Row) : List (String × CellVal) :=
  HEADERS.zip (rowVals row)

/-- `get_all_rows(ws)`: the dictionaries of all data rows whose identifier
cell is not blank, in row order. -/
def get_all_rows (ws : List Row) : List (List (String × CellVal)) :=
  (ws.drop 1).filterMap (fun row =>
    if cellIsBlank (getCellVal row 1) then Option.none
    else some (rowDict row))

/-- The comparison `str(ws.cell(r, 1).value).strip() == customer_id`. -/
def rowKeyMatches (cid : String) (row : Row) : Bool :=
  pyStrip (pyStr (getCellVal row 1)) == cid

/-- First index (0-based) among the data rows whose key matches. -/
def findData (cid : String) : List Row → Option Nat
  | [] => Option.none
  | row :: rest =>
    if rowKeyMatches cid row then some 0
    else (findData cid rest).map (· + 1)

/-- `find_row_by_customer_id(ws, cid)`: index of the first matching row in
the sheet (0-based; the Python code returns the 1-based row number `r ≥ 2`,
which is this index plus one). -/
def find_row_by_customer_id (ws : List Row) (cid : String) : Option Nat :=
  (findData cid (ws.drop 1)).map (· + 1)

/-! Regular-expression matchers.  `PHONE_RE = ^0\d{1,4}-?\d{1,4}-?\d{4}$`
and `EMAIL_RE = ^[A-Za-z0-9._%+-]+@[A-Za-z0-9.-]+\.[A-Za-z]{2,}$`, both
used through `re.match`, i.e. anchored at the start, and `$` also matches
just before one trailing newline.  They are decided by explicit
backtracking over the pattern structure. -/

/-- Consume exactly `n` digits (`\d{n}` at the front), returning the rest. -/
def dropDigits : Nat → List Char → Option (List Char)
  | 0, cs => some cs
  | _ + 1, [] => Option.none
  | n + 1, c :: cs => if c.isDigit then dropDigits n cs else Option.none

/-- The continuations of `-?`: consume one hyphen or nothing. -/
def optHyph : List Char → List (List Char)
  | [] => [[]]
  | c :: r => if c = '-' then [r, c :: r] else [c :: r]

/-- `\d{1,4}-?\d{1,4}-?\d{4}` anchored at the end, with the leading `0`
handled by the caller pattern. -/
def phoneCoreList : List Char → Bool
  | [] => false
  | c :: r0 =>
    if c = '0' then
      (List.range 4).any fun i =>
        ((dropDigits (i + 1) r0).map fun r1 =>
          (optHyph r1).any fun r2 =>
            (List.range 4).any fun j =>
              ((dropDigits (j + 1) r2).map fun r3 =>
                (optHyph r3).any fun r4 =>
                  dropDigits 4 r4 == some ([] : List Char)).getD false).getD false
    else false

/-- `re.match` of an `^...$` pattern: the whole string matches, or the
whole string minus one trailing newline (Python `$` semantics). -/
def pyMatchDollar (core : List Char → Bool) (cs : List Char) : Bool :=
  core cs ||
    (match cs.getLast? with
     | some c => c == '\n' && core cs.dropLast
     | Option.none => false)

def PHONE_RE_match (s : String) : Bool := pyMatchDollar phoneCoreList s.data

/-- `[A-Za-z0-9._%+-]` — local part character class. -/
def isEmailLocalChar (c : Char) : Bool :=
  c.isAlphanum || c = '.' || c = '_' || c = '%' || c = '+' || c = '-'

/-- `[A-Za-z0-9.-]` — domain character class. -/
def isEmailDomainChar (c : Char) : Bool :=
  c.isAlphanum || c = '.' || c = '-'

/-- `[A-Za-z0-9.-]+\.[A-Za-z]{2,}` anchored at the end: some split into a
non-empty domain run, a dot, and a final label of at least two letters. -/
def emailTailList (cs : List Char) : Bool :=
  (List.range cs.length).any fun i =>
    (!(cs.take i).isEmpty) && (cs.take i).all isEmailDomainChar &&
    (match cs.drop i with
     | '.' :: tld => decide (2 ≤ tld.length) && tld.all Char.isAlpha
     | _ => false)

/-- `[A-Za-z0-9._%+-]+@` then the domain tail; since `'@'` is not in the
local character class, the `+` must consume the maximal run. -/
def emailCoreList (cs : List Char) : Bool :=
  (!(cs.takeWhile isEmailLocalChar).isEmpty) &&
  (match cs.dropWhile isEmailLocalChar with
   | '@' :: rest => emailTailList rest
   | _ => false)

def EMAIL_RE_match (s : String) : Bool := pyMatchDollar emailCoreList s.data

/-- The acceptance condition of the handlers' phone check
(`not (phone and not PHONE_RE.match(phone))`): empty or matching. -/
def ValidatePhone (s : String) : Bool :=
  s == "" || PHONE_RE_match s

/-- Likewise for email. -/
def ValidateEmail (s : String) : Bool :=
  s == "" || EMAIL_RE_match s

/-! The HTTP handlers, as functions of the on-disk file state (plus form
inputs and the formatted current time `now`, which the code computes from
`datetime.now()`). -/

/-- Outcome of an operation: its response value, the on-disk file after
the handler returns, and how many `wb.save(XLSX_PATH)` calls ran. -/
structure OpOut (α : Type) where
  res : α
  file : Option Workbook
  saves : Nat

/-- Response of the POST handlers: a re-rendered form carrying an error
message, or the 303 redirect to `/customers`. -/
inductive PostResult where
  | validationError (msg : String)
  | redirect
deriving DecidableEq

/-- Response of `edit_customer`: redirect (identifier not found) or the
record dictionary rendered into the edit form. -/
inductive EditResult where
  | redirect
  | data (d : List (String × CellVal))
deriving DecidableEq

/-- `GET /customers` (`list_customers`): ensure, scan, save. -/
def list_customers (file : Option Workbook) : OpOut (List (List (String × CellVal))) :=
  let e := ensure_workbook file
  ⟨get_all_rows (wsOf e.wb), some e.wb, e.saves + 1⟩

/-- `GET /customers/new` (`new_customer`): ensure, allocate id, save. -/
def new_customer (file : Option Workbook) : OpOut String :=
  let e := ensure_workbook file
  ⟨next_customer_id (wsOf e.wb), some e.wb, e.saves + 1⟩

/-- The 11 cell values written by both POST handlers. -/
def valuesList (customer_id name start_date care phone address email staff note now : String) :
    List CellVal :=
  [CellVal.str customer_id, CellVal.str name, CellVal.str start_date, CellVal.str care,
   CellVal.str phone, CellVal.str address, CellVal.str email, CellVal.str staff,
   CellVal.str note, CellVal.str now,
   CellVal.str ("/customers/" ++ customer_id ++ "/edit")]

/-- The sheet after `create_customer`'s locked section: overwrite the
matching row in place (then force text format on its A cell), or append a
new row (then force text format on the A cell of the last row). -/
def upsert_ws (ws : List Row) (vals : List CellVal) (cid : String) : List Row :=
  match find_row_by_customer_id ws cid with
  | some r => ws.set r (setFmtA (overwriteRow (ws.getD r []) vals))
  | Option.none => ws ++ [setFmtA (freshRow vals)]

/-- `POST /customers` (`create_customer`): validate phone and email, then
upsert by `customer_id` and save. -/
def create_customer (file : Option Workbook)
    (customer_id name start_date care phone address email staff note now : String) :
    OpOut PostResult :=
  if phone != "" && !(PHONE_RE_match phone) then
    ⟨PostResult.validationError "電話番号の形式が不正です（例：090-1234-5678）", file, 0⟩
  else if email != "" && !(EMAIL_RE_match email) then
    ⟨PostResult.validationError "メールアドレスの形式が不正です（例：name@example.com）", file, 0⟩
  else
    let e := ensure_workbook file
    let vals := valuesList customer_id name start_date care phone address email staff note now
    ⟨PostResult.redirect, some ⟨some (upsert_ws (wsOf e.wb) vals customer_id)⟩, e.saves + 1⟩

/-- `GET /customers/{customer_id}/edit` (`edit_customer`): ensure, locate,
save on both paths; render the row's dictionary when found. -/
def edit_customer (file : Option Workbook) (customer_id : String) : OpOut EditResult :=
  let e := ensure_workbook file
  let ws := wsOf e.wb
  match find_row_by_customer_id ws customer_id with
  | Option.none => ⟨EditResult.redirect, some e.wb, e.saves + 1⟩
  | some r => ⟨EditResult.data (rowDict (ws.getD r [])), some e.wb, e.saves + 1⟩

/-- `POST /customers/{customer_id}/edit` (`update_customer`): validate,
then overwrite the matching row and save; when no row matches, fall
through to the redirect without touching or saving the sheet. -/
def update_customer (file : Option Workbook)
    (customer_id name start_date care phone address email staff note now : String) :
    OpOut PostResult :=
  if phone != "" && !(PHONE_RE_match phone) then
    ⟨PostResult.validationError "電話番号の形式が不正です", file, 0⟩
  else if email != "" && !(EMAIL_RE_match email) then
    ⟨PostResult.validationError "メールアドレスの形式が不正です", file, 0⟩
  else
    let e := ensure_workbook file
    let ws := wsOf e.wb
    match find_row_by_customer_id ws customer_id with
    | some r =>
      let vals := valuesList customer_id name start_date care phone address email staff note now
      ⟨PostResult.redirect, some ⟨some (ws.set r (setFmtA (overwriteRow (ws.getD r []) vals)))⟩,
        e.saves + 1⟩
    | Option.none => ⟨PostResult.redirect, e.file, e.saves⟩

/-! Spec-side definitions, written from the specification's words, to be
compared with the source-derived definitions above. -/

/-- Spec: the integers obtained by parsing each non-empty value of
column 1 of the data rows, silently skipping values that fail to parse. -/
def spec_parsed_ids (ws : List Row) : List Int :=
  (ws.drop 1).filterMap (fun row =>
    let v := getCellVal row 1
    if v = CellVal.none ∨ v = CellVal.str "" then Option.none
    else pyIntParse (pyStr v))

/-- `max (l ∪ {0})` for a list of integers. -/
def listMax0 (l : List Int) : Int := l.foldl max 0

/-- The action of an upsert on the data rows alone (row 2 onwards):
`upsert_ws` restricted below the header. -/
def upsertData (d : List Row) (vals : List CellVal) (cid : String) : List Row :=
  match findData cid d with
  | some i => d.set i (setFmtA (overwriteRow (d.getD i []) vals))
  | Option.none => d ++ [setFmtA (freshRow vals)]

/-- Spec (amended for C3): a mandatory leading `0`, one to four digits, an
optional hyphen, one to four digits, an optional hyphen, exactly four
digits, optionally followed by one trailing newline. -/
def PhoneShape (s : String) : Prop :=
  ∃ g1 h1 g2 h2 g3 nl : List Char,
    s.data = '0' :: (g1 ++ h1 ++ g2 ++ h2 ++ g3 ++ nl) ∧
    (1 ≤ g1.length ∧ g1.length ≤ 4 ∧ ∀ c ∈ g1, c.isDigit) ∧
    (h1 = [] ∨ h1 = ['-']) ∧
    (1 ≤ g2.length ∧ g2.length ≤ 4 ∧ ∀ c ∈ g2, c.isDigit) ∧
    (h2 = [] ∨ h2 = ['-']) ∧
    (g3.length = 4 ∧ ∀ c ∈ g3, c.isDigit) ∧
    (nl = [] ∨ nl = ['\n'])

/-! Supporting lemmas. -/

theorem max_step_eq (m n : Int) : (if n > m then n else m) = max m n := by
  rcases le_or_lt n m with h | h
  · simp [if_neg (not_lt.mpr h), max_eq_left h]
  · simp [if_pos h, max_eq_right h.le]

theorem next_fold_eq (d : List Row) : ∀ m : Int,
    d.foldl
      (fun m row =>
        let v := getCellVal row 1
        if v = CellVal.none ∨ v = CellVal.str "" then m
        else
          match pyIntParse (pyStr v) with
          | some n => if n > m then n else m
          | Option.none => m)
      m
    = (d.filterMap (fun row =>
        let v := getCellVal row 1
        if v = CellVal.none ∨ v = CellVal.str "" then Option.none
        else pyIntParse (pyStr v))).foldl max m := by
  induction d with
  | nil => intro m; rfl
  | cons row rest ih =>
    intro m
    by_cases hb : getCellVal row 1 = CellVal.none ∨ getCellVal row 1 = CellVal.str ""
    · simp only [List.foldl_cons, List.filterMap_cons, if_pos hb]
      exact ih m
    · simp only [List.foldl_cons, List.filterMap_cons, if_neg hb]
      cases hp : pyIntParse (pyStr (getCellVal row 1)) with
      | none => exact ih m
      | some n => simpa [max_step_eq] using ih (max m n)

/-- C1: `NextIdentifier` scans column 1 of all data rows, parses each
non-empty value as an integer, silently skips values that fail to parse,
and returns `max(parsed values ∪ {0}) + 1` zero-padded to 4 digits; being
a total function it never fails on malformed identifier values. -/
theorem C1_next_identifier_spec (ws : List Row) :
    next_customer_id ws = pyZfill (toString (listMax0 (spec_parsed_ids ws) + 1)) 4 := by
  unfold next_customer_id spec_parsed_ids listMax0
  rw [next_fold_eq]

/-- C8: with no table file, `ensure_workbook` creates and saves a file
containing only the header row, whose row 1 is exactly the 11 schema field
names in order; with a file whose `Customers` sheet is absent, the sheet
is created in memory with just that header. -/
theorem C8_fresh_header :
    (ensure_workbook Option.none).wb.customers = some [headerRow] ∧
    (ensure_workbook Option.none).file = some ⟨some [headerRow]⟩ ∧
    (ensure_workbook Option.none).saves = 1 ∧
    headerRow.map Cell.val = HEADERS.map CellVal.str ∧
    HEADERS.length = 11 ∧
    (ensure_workbook (some ⟨Option.none⟩)).wb.customers = some [headerRow] ∧
    (ensure_workbook (some ⟨Option.none⟩)).file = some ⟨Option.none⟩ := by
  refine ⟨rfl, rfl, rfl, ?_, rfl, rfl, rfl⟩
  rfl

theorem getCellVal_setFmtA (row : Row) (c : Nat) :
    getCellVal (setFmtA row) c = getCellVal row c := by
  cases row with
  | nil =>
    cases hc : c - 1 with
    | zero => simp [setFmtA, getCellVal, hc]
    | succ k => simp [setFmtA, getCellVal, hc]
  | cons x r =>
    cases hc : c - 1 with
    | zero => simp [setFmtA, getCellVal, hc]
    | succ k => simp [setFmtA, getCellVal, hc]

theorem getCellFmt_setFmtA_one (row : Row) : getCellFmt (setFmtA row) 1 = "@" := by
  cases row <;> rfl

theorem getCellVal_cons_succ (x : Cell) (r : Row) (i : Nat) :
    getCellVal (x :: r) (i + 2) = getCellVal r (i + 1) := by
  simp [getCellVal]

theorem getCellVal_overwriteRow (vs : List CellVal) :
    ∀ (row : Row) (i : Nat), i < vs.length →
      getCellVal (overwriteRow row vs) (i + 1) = vs.getD i CellVal.none := by
  induction vs with
  | nil => intro row i h; exact absurd h (by simp)
  | cons v vs ih =>
    intro row i h
    cases row with
    | nil =>
      cases i with
      | zero => simp [overwriteRow, getCellVal]
      | succ k =>
        have hk : k < vs.length := by simpa using h
        calc getCellVal (overwriteRow [] (v :: vs)) (k + 2)
            = getCellVal (overwriteRow [] vs) (k + 1) := by
              rw [show overwriteRow [] (v :: vs) = ⟨v, "General"⟩ :: overwriteRow [] vs from rfl]
              exact getCellVal_cons_succ _ _ k
          _ = vs.getD k CellVal.none := ih [] k hk
          _ = (v :: vs).getD (k + 1) CellVal.none := rfl
    | cons x r =>
      cases i with
      | zero => simp [overwriteRow, getCellVal]
      | succ k =>
        have hk : k < vs.length := by simpa using h
        calc getCellVal (overwriteRow (x :: r) (v :: vs)) (k + 2)
            = getCellVal (overwriteRow r vs) (k + 1) := by
              rw [show overwriteRow (x :: r) (v :: vs) = ⟨v, x.fmt⟩ :: overwriteRow r vs from rfl]
              exact getCellVal_cons_succ _ _ k
          _ = vs.getD k CellVal.none := ih r k hk
          _ = (v :: vs).getD (k + 1) CellVal.none := rfl

theorem freshRow_eq (vs : List CellVal) : freshRow vs = overwriteRow [] vs := by
  induction vs with
  | nil => rfl
  | cons v vs ih => simp [freshRow, overwriteRow] at ih ⊢; exact ih

/-- The written row reads back exactly the eleven written values. -/
theorem rowVals_written (row : Row)
    (a1 a2 a3 a4 a5 a6 a7 a8 a9 a10 a11 : CellVal) :
    rowVals (setFmtA (overwriteRow row [a1, a2, a3, a4, a5, a6, a7, a8, a9, a10, a11]))
      = [a1, a2, a3, a4, a5, a6, a7, a8, a9, a10, a11] := by
  have h := getCellVal_overwriteRow
    [a1, a2, a3, a4, a5, a6, a7, a8, a9, a10, a11] row
  have e : ∀ i : Nat, i < 11 →
      getCellVal (setFmtA (overwriteRow row [a1, a2, a3, a4, a5, a6, a7, a8, a9, a10, a11])) (i + 1)
        = [a1, a2, a3, a4, a5, a6, a7, a8, a9, a10, a11].getD i CellVal.none := by
    intro i hi
    rw [getCellVal_setFmtA]
    exact h i (by simpa using hi)
  show (List.range 11).map _ = _
  rw [show List.range 11 = [0, 1, 2, 3, 4, 5, 6, 7, 8, 9, 10] from rfl]
  simp only [List.map_cons, List.map_nil]
  rw [e 0 (by omega), e 1 (by omega), e 2 (by omega), e 3 (by omega), e 4 (by omega),
    e 5 (by omega), e 6 (by omega), e 7 (by omega), e 8 (by omega), e 9 (by omega),
    e 10 (by omega)]
  rfl

theorem getD_set_self (l : List Row) : ∀ (i : Nat) (x : Row), i < l.length →
    (l.set i x).getD i [] = x := by
  induction l with
  | nil => intro i x h; exact absurd h (by simp)
  | cons a l ih =>
    intro i x h
    cases i with
    | zero => rfl
    | succ k => exact ih k x (by simpa using h)

theorem getD_set_ne (l : List Row) : ∀ (i j : Nat) (x : Row), i ≠ j →
    (l.set i x).getD j [] = l.getD j [] := by
  induction l with
  | nil => intro i j x _; cases i <;> rfl
  | cons a l ih =>
    intro i j x hij
    cases i with
    | zero =>
      cases j with
      | zero => exact absurd rfl hij
      | succ m => rfl
    | succ k =>
      cases j with
      | zero => rfl
      | succ m => exact ih k m x (by omega)

theorem findData_lt_length (cid : String) : ∀ (d : List Row) (i : Nat),
    findData cid d = some i → i < d.length := by
  intro d
  induction d with
  | nil => intro i h; simp [findData] at h
  | cons row rest ih =>
    intro i h
    by_cases hm : rowKeyMatches cid row
    · simp only [findData, if_pos hm, Option.some.injEq] at h
      subst h; simp
    · simp only [findData, if_neg hm, Option.map_eq_some'] at h
      obtain ⟨k, hk, rfl⟩ := h
      have := ih k hk
      simp only [List.length_cons]
      omega

theorem findData_matches (cid : String) : ∀ (d : List Row) (i : Nat),
    findData cid d = some i → rowKeyMatches cid (d.getD i []) = true := by
  intro d
  induction d with
  | nil => intro i h; simp [findData] at h
  | cons row rest ih =>
    intro i h
    by_cases hm : rowKeyMatches cid row
    · simp only [findData, if_pos hm, Option.some.injEq] at h
      subst h; simpa using hm
    · simp only [findData, if_neg hm, Option.map_eq_some'] at h
      obtain ⟨k, hk, rfl⟩ := h
      simpa using ih k hk

theorem findData_none (cid : String) : ∀ d : List Row,
    findData cid d = Option.none → ∀ row ∈ d, rowKeyMatches cid row = false := by
  intro d
  induction d with
  | nil => intro _ row hrow; simp at hrow
  | cons r rest ih =>
    intro h row hrow
    by_cases hm : rowKeyMatches cid r
    · simp [findData, hm] at h
    · simp only [findData, if_neg hm, Option.map_eq_none'] at h
      rcases List.mem_cons.mp hrow with rfl | hmem
      · simpa using hm
      · exact ih h row hmem

theorem getD_drop_one (ws : List Row) (i : Nat) :
    (ws.drop 1).getD i [] = ws.getD (i + 1) [] := by
  cases ws <;> rfl

theorem find_row_bounds (ws : List Row) (cid : String) (r : Nat)
    (h : find_row_by_customer_id ws cid = some r) : 1 ≤ r ∧ r < ws.length := by
  unfold find_row_by_customer_id at h
  rw [Option.map_eq_some'] at h
  obtain ⟨i, hi, rfl⟩ := h
  have hlt := findData_lt_length cid _ i hi
  rw [List.length_drop] at hlt
  omega

theorem find_row_matches (ws : List Row) (cid : String) (r : Nat)
    (h : find_row_by_customer_id ws cid = some r) :
    rowKeyMatches cid (ws.getD r []) = true := by
  unfold find_row_by_customer_id at h
  rw [Option.map_eq_some'] at h
  obtain ⟨i, hi, rfl⟩ := h
  have := findData_matches cid _ i hi
  rwa [getD_drop_one] at this

theorem find_row_none (ws : List Row) (cid : String)
    (h : find_row_by_customer_id ws cid = Option.none) :
    ∀ row ∈ ws.drop 1, rowKeyMatches cid row = false := by
  unfold find_row_by_customer_id at h
  rw [Option.map_eq_none'] at h
  exact findData_none cid _ h

theorem phone_cond_false {ph : String} (hp : ph = "" ∨ PHONE_RE_match ph = true) :
    (ph != "" && !(PHONE_RE_match ph)) = false := by
  rcases hp with rfl | h
  · simp
  · simp [h]

theorem email_cond_false {em : String} (he : em = "" ∨ EMAIL_RE_match em = true) :
    (em != "" && !(EMAIL_RE_match em)) = false := by
  rcases he with rfl | h
  · simp
  · simp [h]

/-- When validation passes, `create_customer` takes its storage branch. -/
theorem create_customer_pass (file : Option Workbook)
    (cid n sd care ph ad em st no now : String)
    (hp : ph = "" ∨ PHONE_RE_match ph = true)
    (he : em = "" ∨ EMAIL_RE_match em = true) :
    create_customer file cid n sd care ph ad em st no now =
      ⟨PostResult.redirect,
       some ⟨some (upsert_ws (wsOf (ensure_workbook file).wb)
         (valuesList cid n sd care ph ad em st no now) cid)⟩,
       (ensure_workbook file).saves + 1⟩ := by
  unfold create_customer
  rw [phone_cond_false hp, email_cond_false he]
  simp only [Bool.false_eq_true, if_false]

/-- C2: after passing validation, `create_customer` overwrites the first
row matching the identifier in place (its eleven cells become the
submitted values, the identifier cell re-typed as text) or, when no row
matches, appends such a row at the end; on both paths cell 10 is the
formatted current time, cell 11 is the derived edit-link path, and the
workbook is saved. -/
theorem C2_create_upsert (file : Option Workbook)
    (cid n sd care ph ad em st no now : String)
    (hp : ph = "" ∨ PHONE_RE_match ph = true)
    (he : em = "" ∨ EMAIL_RE_match em = true) :
    (create_customer file cid n sd care ph ad em st no now).res = PostResult.redirect ∧
    1 ≤ (create_customer file cid n sd care ph ad em st no now).saves ∧
    ∃ ws', (create_customer file cid n sd care ph ad em st no now).file = some ⟨some ws'⟩ ∧
      (∀ r, find_row_by_customer_id (wsOf (ensure_workbook file).wb) cid = some r →
        ws'.length = (wsOf (ensure_workbook file).wb).length ∧
        (∀ j, j ≠ r → ws'.getD j [] = (wsOf (ensure_workbook file).wb).getD j []) ∧
        rowVals (ws'.getD r []) =
          [CellVal.str cid, CellVal.str n, CellVal.str sd, CellVal.str care, CellVal.str ph,
           CellVal.str ad, CellVal.str em, CellVal.str st, CellVal.str no, CellVal.str now,
           CellVal.str ("/customers/" ++ cid ++ "/edit")] ∧
        getCellFmt (ws'.getD r []) 1 = "@") ∧
      (find_row_by_customer_id (wsOf (ensure_workbook file).wb) cid = Option.none →
        ∃ nr, ws' = wsOf (ensure_workbook file).wb ++ [nr] ∧
          rowVals nr =
            [CellVal.str cid, CellVal.str n, CellVal.str sd, CellVal.str care, CellVal.str ph,
             CellVal.str ad, CellVal.str em, CellVal.str st, CellVal.str no, CellVal.str now,
             CellVal.str ("/customers/" ++ cid ++ "/edit")] ∧
          getCellFmt nr 1 = "@") := by
  rw [create_customer_pass file cid n sd care ph ad em st no now hp he]
  refine ⟨rfl, Nat.le_add_left 1 _, ?_⟩
  refine ⟨upsert_ws (wsOf (ensure_workbook file).wb)
    (valuesList cid n sd care ph ad em st no now) cid, rfl, ?_, ?_⟩
  · intro r hr
    unfold upsert_ws
    rw [hr]
    have hb := find_row_bounds _ _ _ hr
    refine ⟨List.length_set _ _ _, ?_, ?_, ?_⟩
    · intro j hj
      exact getD_set_ne _ _ _ _ (fun hrj => hj hrj.symm)
    · rw [getD_set_self _ _ _ hb.2]
      exact rowVals_written _ _ _ _ _ _ _ _ _ _ _ _
    · rw [getD_set_self _ _ _ hb.2]
      exact getCellFmt_setFmtA_one _
  · intro hn
    unfold upsert_ws
    rw [hn]
    refine ⟨setFmtA (freshRow (valuesList cid n sd care ph ad em st no now)), rfl, ?_, ?_⟩
    · rw [freshRow_eq]
      exact rowVals_written _ _ _ _ _ _ _ _ _ _ _ _
    · exact getCellFmt_setFmtA_one _

/-- Closed instance of `C2_create_upsert`: a create on a fresh table with
identifier `"0001"` redirects. -/
theorem C2_create_upsert_witness :
    (create_customer (some ⟨some [headerRow]⟩)
      "0001" "A" "" "" "" "" "" "" "" "2024/01/01 00:00:00").res = PostResult.redirect :=
  (C2_create_upsert (some ⟨some [headerRow]⟩)
    "0001" "A" "" "" "" "" "" "" "" "2024/01/01 00:00:00"
    (Or.inl rfl) (Or.inl rfl)).1

theorem ensure_some_file (wb : Workbook) :
    (ensure_workbook (some wb)).file = some wb ∧ (ensure_workbook (some wb)).saves = 0 := by
  cases h : wb.customers <;> simp [ensure_workbook, h]

/-- When validation passes and a row matches, `update_customer` overwrites
it and saves. -/
theorem update_customer_found (file : Option Workbook)
    (cid n sd care ph ad em st no now : String)
    (hp : ph = "" ∨ PHONE_RE_match ph = true)
    (he : em = "" ∨ EMAIL_RE_match em = true)
    (r : Nat)
    (hr : find_row_by_customer_id (wsOf (ensure_workbook file).wb) cid = some r) :
    update_customer file cid n sd care ph ad em st no now =
      ⟨PostResult.redirect,
       some ⟨some ((wsOf (ensure_workbook file).wb).set r
         (setFmtA (overwriteRow ((wsOf (ensure_workbook file).wb).getD r [])
           (valuesList cid n sd care ph ad em st no now))))⟩,
       (ensure_workbook file).saves + 1⟩ := by
  simp only [update_customer, phone_cond_false hp, email_cond_false he,
    Bool.false_eq_true, if_false, hr]

/-- When validation passes and no row matches, `update_customer` falls
through: the file and save count are whatever `ensure_workbook` left. -/
theorem update_customer_notfound (file : Option Workbook)
    (cid n sd care ph ad em st no now : String)
    (hp : ph = "" ∨ PHONE_RE_match ph = true)
    (he : em = "" ∨ EMAIL_RE_match em = true)
    (hn : find_row_by_customer_id (wsOf (ensure_workbook file).wb) cid = Option.none) :
    update_customer file cid n sd care ph ad em st no now =
      ⟨PostResult.redirect, (ensure_workbook file).file, (ensure_workbook file).saves⟩ := by
  simp only [update_customer, phone_cond_false hp, email_cond_false he,
    Bool.false_eq_true, if_false, hn]

/-- C9: a POST on the edit path whose identifier matches no row leaves an
existing table file untouched and unsaved — no row appended, no error —
and the caller receives the redirect. -/
theorem C9_update_missing_id_noop (wb : Workbook)
    (cid n sd care ph ad em st no now : String)
    (hp : ph = "" ∨ PHONE_RE_match ph = true)
    (he : em = "" ∨ EMAIL_RE_match em = true)
    (hn : find_row_by_customer_id (wsOf (ensure_workbook (some wb)).wb) cid = Option.none) :
    (update_customer (some wb) cid n sd care ph ad em st no now).res = PostResult.redirect ∧
    (update_customer (some wb) cid n sd care ph ad em st no now).file = some wb ∧
    (update_customer (some wb) cid n sd care ph ad em st no now).saves = 0 := by
  rw [update_customer_notfound (some wb) cid n sd care ph ad em st no now hp he hn]
  exact ⟨rfl, (ensure_some_file wb).1, (ensure_some_file wb).2⟩

/-- Closed instance of `C9_update_missing_id_noop` on a header-only table. -/
theorem C9_update_missing_id_noop_witness :
    (update_customer (some ⟨some [headerRow]⟩) "0001" "A" "" "" "" "" "" "" "" "t").res
      = PostResult.redirect ∧
    (update_customer (some ⟨some [headerRow]⟩) "0001" "A" "" "" "" "" "" "" "" "t").file
      = some ⟨some [headerRow]⟩ ∧
    (update_customer (some ⟨some [headerRow]⟩) "0001" "A" "" "" "" "" "" "" "" "t").saves = 0 :=
  C9_update_missing_id_noop ⟨some [headerRow]⟩ "0001" "A" "" "" "" "" "" "" "" "t"
    (Or.inl rfl) (Or.inl rfl) rfl

/-- C6 counterexample: on an existing header-only table, the edit-path
POST with an identifier matching no row reaches storage but performs no
save at all, so not every operation re-saves the file. -/
theorem C6_update_no_save_counterexample :
    (update_customer (some ⟨some [headerRow]⟩) "0001" "A" "" "" "" "" "" "" "" "t").saves = 0 ∧
    (update_customer (some ⟨some [headerRow]⟩) "0001" "A" "" "" "" "" "" "" "" "t").res
      = PostResult.redirect := by
  exact ⟨rfl, rfl⟩

/-- C6 (amended): `list_customers`, `new_customer`, a validated
`create_customer` and `edit_customer` always save the file before
returning; a validated edit-path `update_customer` saves when its
identifier matches a row, but with an existing file and no matching row it
returns without saving, leaving the file as it was. -/
theorem C6_save_on_operations (file : Option Workbook)
    (cid n sd care ph ad em st no now : String) :
    1 ≤ (list_customers file).saves ∧
    1 ≤ (new_customer file).saves ∧
    ((ph = "" ∨ PHONE_RE_match ph = true) → (em = "" ∨ EMAIL_RE_match em = true) →
      1 ≤ (create_customer file cid n sd care ph ad em st no now).saves) ∧
    1 ≤ (edit_customer file cid).saves ∧
    ((ph = "" ∨ PHONE_RE_match ph = true) → (em = "" ∨ EMAIL_RE_match em = true) →
      ∀ r, find_row_by_customer_id (wsOf (ensure_workbook file).wb) cid = some r →
        1 ≤ (update_customer file cid n sd care ph ad em st no now).saves) ∧
    ((ph = "" ∨ PHONE_RE_match ph = true) → (em = "" ∨ EMAIL_RE_match em = true) →
      ∀ wb, file = some wb →
      find_row_by_customer_id (wsOf (ensure_workbook file).wb) cid = Option.none →
        (update_customer file cid n sd care ph ad em st no now).saves = 0 ∧
        (update_customer file cid n sd care ph ad em st no now).file = some wb) := by
  refine ⟨Nat.le_add_left 1 _, Nat.le_add_left 1 _, ?_, ?_, ?_, ?_⟩
  · intro hp he
    rw [create_customer_pass file cid n sd care ph ad em st no now hp he]
    exact Nat.le_add_left 1 _
  · rcases hf : find_row_by_customer_id (wsOf (ensure_workbook file).wb) cid with _ | r
    · have : edit_customer file cid =
          ⟨EditResult.redirect, some (ensure_workbook file).wb, (ensure_workbook file).saves + 1⟩ := by
        simp only [edit_customer, hf]
      rw [this]
      exact Nat.le_add_left 1 _
    · have : edit_customer file cid =
          ⟨EditResult.data (rowDict ((wsOf (ensure_workbook file).wb).getD r [])),
           some (ensure_workbook file).wb, (ensure_workbook file).saves + 1⟩ := by
        simp only [edit_customer, hf]
      rw [this]
      exact Nat.le_add_left 1 _
  · intro hp he r hr
    rw [update_customer_found file cid n sd care ph ad em st no now hp he r hr]
    exact Nat.le_add_left 1 _
  · intro hp he wb hwb hn
    subst hwb
    rw [update_customer_notfound (some wb) cid n sd care ph ad em st no now hp he hn]
    exact ⟨(ensure_some_file wb).2, (ensure_some_file wb).1⟩

/-- Closed instance of `C6_save_on_operations`: the listed operations save
on a concrete one-record table where `"0001"` matches row 2. -/
theorem C6_save_on_operations_witness :
    1 ≤ (list_customers (some ⟨some [headerRow, freshRow [CellVal.str "0001"]]⟩)).saves ∧
    1 ≤ (update_customer (some ⟨some [headerRow, freshRow [CellVal.str "0001"]]⟩)
          "0001" "A" "" "" "" "" "" "" "" "t").saves := by
  have h := C6_save_on_operations (some ⟨some [headerRow, freshRow [CellVal.str "0001"]]⟩)
    "0001" "A" "" "" "" "" "" "" "" "t"
  exact ⟨h.1, h.2.2.2.2.1 (Or.inl rfl) (Or.inl rfl) 1 (by decide)⟩

theorem get_all_rows_append_blank (ws : List Row) (nr : Row)
    (hb : cellIsBlank (getCellVal nr 1) = true) :
    get_all_rows (ws ++ [nr]) = get_all_rows ws := by
  cases ws with
  | nil => rfl
  | cons h t =>
    show (t ++ [nr]).filterMap _ = t.filterMap _
    rw [List.filterMap_append]
    simp [hb]

/-- C10: `create_customer` accepts the empty identifier: when no row's
trimmed identifier cell equals `""`, it appends a row whose identifier
cell is the empty string — a row `get_all_rows` (hence `ListRecords`)
never returns, so the listing is unchanged. -/
theorem C10_empty_id_append (ws : List Row) (n sd care ph ad em st no now : String)
    (hp : ph = "" ∨ PHONE_RE_match ph = true)
    (he : em = "" ∨ EMAIL_RE_match em = true)
    (hn : find_row_by_customer_id ws "" = Option.none) :
    (create_customer (some ⟨some ws⟩) "" n sd care ph ad em st no now).res
      = PostResult.redirect ∧
    ∃ nr, (create_customer (some ⟨some ws⟩) "" n sd care ph ad em st no now).file
        = some ⟨some (ws ++ [nr])⟩ ∧
      getCellVal nr 1 = CellVal.str "" ∧
      rowVals nr =
        [CellVal.str "", CellVal.str n, CellVal.str sd, CellVal.str care, CellVal.str ph,
         CellVal.str ad, CellVal.str em, CellVal.str st, CellVal.str no, CellVal.str now,
         CellVal.str ("/customers/" ++ "" ++ "/edit")] ∧
      get_all_rows (ws ++ [nr]) = get_all_rows ws := by
  rw [create_customer_pass (some ⟨some ws⟩) "" n sd care ph ad em st no now hp he]
  refine ⟨rfl, ?_⟩
  refine ⟨setFmtA (freshRow (valuesList "" n sd care ph ad em st no now)), ?_, ?_, ?_, ?_⟩
  · refine congrArg (fun l => some (Workbook.mk (some l))) ?_
    unfold upsert_ws
    have hws : wsOf (ensure_workbook (some ⟨some ws⟩)).wb = ws := rfl
    rw [hws, hn]
  · rw [freshRow_eq, getCellVal_setFmtA]
    exact getCellVal_overwriteRow _ [] 0 (by simp [valuesList])
  · rw [freshRow_eq]
    exact rowVals_written [] _ _ _ _ _ _ _ _ _ _ _
  · apply get_all_rows_append_blank
    rw [freshRow_eq, getCellVal_setFmtA]
    have h0 := getCellVal_overwriteRow (valuesList "" n sd care ph ad em st no now) [] 0
      (by simp [valuesList])
    rw [h0]
    rfl

/-- Closed instance of `C10_empty_id_append` on a header-only table. -/
theorem C10_empty_id_append_witness :
    (create_customer (some ⟨some [headerRow]⟩) "" "A" "" "" "" "" "" "" "" "t").res
      = PostResult.redirect ∧
    ∃ nr, (create_customer (some ⟨some [headerRow]⟩) "" "A" "" "" "" "" "" "" "" "t").file
        = some ⟨some ([headerRow] ++ [nr])⟩ ∧
      getCellVal nr 1 = CellVal.str "" ∧
      rowVals nr =
        [CellVal.str "", CellVal.str "A", CellVal.str "", CellVal.str "", CellVal.str "",
         CellVal.str "", CellVal.str "", CellVal.str "", CellVal.str "", CellVal.str "t",
         CellVal.str ("/customers/" ++ "" ++ "/edit")] ∧
      get_all_rows ([headerRow] ++ [nr]) = get_all_rows [headerRow] :=
  C10_empty_id_append [headerRow] "A" "" "" "" "" "" "" "" "t"
    (Or.inl rfl) (Or.inl rfl) rfl

theorem rowDict_lookup (row : Row) :
    (rowDict row).lookup "CustomerID" = some (getCellVal row 1) := rfl

/-- C5 counterexample: `edit_customer` requested with the identifier
`"None"` returns the record of a data row whose identifier cell is empty
(unset), because `str(None).strip()` is `"None"`; so empty-identifier rows
are not invisible to every read operation. -/
theorem C5_empty_id_returned_counterexample :
    (edit_customer (some ⟨some [headerRow,
        [⟨CellVal.none, "General"⟩, ⟨CellVal.str "Bob", "General"⟩]]⟩) "None").res
      = EditResult.data (rowDict [⟨CellVal.none, "General"⟩, ⟨CellVal.str "Bob", "General"⟩]) ∧
    cellIsBlank (getCellVal [⟨CellVal.none, "General"⟩, ⟨CellVal.str "Bob", "General"⟩] 1)
      = true :=
  ⟨rfl, rfl⟩

/-- C5 (amended): a data row with an empty identifier cell never appears
in `get_all_rows` (hence `ListRecords`) output; and `edit_customer` never
returns such a row unless the requested identifier is the empty string
(which matches an empty-string cell after trimming) or `"None"` (which
matches an unset cell through Python's `str(None)`). -/
theorem C5_presence_filtering :
    (∀ (ws : List Row) (d : List (String × CellVal)), d ∈ get_all_rows ws →
      cellIsBlank ((d.lookup "CustomerID").getD CellVal.none) = false) ∧
    (∀ (file : Option Workbook) (cid : String) (d : List (String × CellVal)),
      cid ≠ "" → cid ≠ "None" →
      (edit_customer file cid).res = EditResult.data d →
      cellIsBlank ((d.lookup "CustomerID").getD CellVal.none) = false) := by
  constructor
  · intro ws d hd
    rw [get_all_rows, List.mem_filterMap] at hd
    obtain ⟨row, _, hrow⟩ := hd
    by_cases hb : cellIsBlank (getCellVal row 1) = true
    · rw [if_pos hb] at hrow
      exact absurd hrow (by simp)
    · rw [if_neg hb] at hrow
      have hdr : rowDict row = d := by injection hrow
      subst hdr
      rw [rowDict_lookup]
      simpa using hb
  · intro file cid d hne hnn hres
    rcases hf : find_row_by_customer_id (wsOf (ensure_workbook file).wb) cid with _ | r
    · have : (edit_customer file cid).res = EditResult.redirect := by
        simp only [edit_customer, hf]
      rw [this] at hres
      exact absurd hres (by simp)
    · have : (edit_customer file cid).res
          = EditResult.data (rowDict ((wsOf (ensure_workbook file).wb).getD r [])) := by
        simp only [edit_customer, hf]
      rw [this] at hres
      have hdr : rowDict ((wsOf (ensure_workbook file).wb).getD r []) = d := by
        injection hres
      subst hdr
      rw [rowDict_lookup]
      have hm := find_row_matches _ _ _ hf
      rw [rowKeyMatches, beq_iff_eq] at hm
      cases hv : getCellVal ((wsOf (ensure_workbook file).wb).getD r []) 1 with
      | none =>
        rw [hv] at hm
        have h1 : cid = "None" := by rw [← hm]; decide
        exact absurd h1 hnn
      | str s =>
        rw [hv] at hm
        by_cases hs : s = ""
        · subst hs
          have h1 : cid = "" := by rw [← hm]; decide
          exact absurd h1 hne
        · simp [cellIsBlank, hs]
      | int k =>
        simp [cellIsBlank]

/-- Closed instance of `C5_presence_filtering`: on a one-record table the
listed dictionary and the edit result both carry a non-empty identifier. -/
theorem C5_presence_filtering_witness :
    cellIsBlank (((rowDict (freshRow [CellVal.str "0001"])).lookup "CustomerID").getD
      CellVal.none) = false ∧
    cellIsBlank ((((get_all_rows [headerRow, freshRow [CellVal.str "0001"]]).getD 0
      []).lookup "CustomerID").getD CellVal.none) = false := by
  constructor
  · exact C5_presence_filtering.2 (some ⟨some [headerRow, freshRow [CellVal.str "0001"]]⟩)
      "0001" (rowDict (freshRow [CellVal.str "0001"])) (by decide) (by decide) rfl
  · exact C5_presence_filtering.1 [headerRow, freshRow [CellVal.str "0001"]]
      ((get_all_rows [headerRow, freshRow [CellVal.str "0001"]]).getD 0 []) (by decide)

theorem phone_cond_true {ph : String} (h1 : ph ≠ "") (h2 : PHONE_RE_match ph = false) :
    (ph != "" && !(PHONE_RE_match ph)) = true := by
  simp [h1, h2]

theorem email_cond_true {em : String} (h1 : em ≠ "") (h2 : EMAIL_RE_match em = false) :
    (em != "" && !(EMAIL_RE_match em)) = true := by
  simp [h1, h2]

/-- C4: when the non-empty phone or non-empty email fails its pattern,
both POST handlers return a validation error carrying a message and leave
the file exactly as it was, with no save; concretely, phone `"12345"`
fails this way and phone `"090-1234-5678"` (other fields valid) succeeds. -/
theorem C4_validation_gating :
    (∀ (file : Option Workbook) (cid n sd care ph ad em st no now : String),
      ((ph ≠ "" ∧ PHONE_RE_match ph = false) ∨ (em ≠ "" ∧ EMAIL_RE_match em = false)) →
      (∃ m, (create_customer file cid n sd care ph ad em st no now).res
          = PostResult.validationError m) ∧
      (create_customer file cid n sd care ph ad em st no now).file = file ∧
      (create_customer file cid n sd care ph ad em st no now).saves = 0 ∧
      (∃ m, (update_customer file cid n sd care ph ad em st no now).res
          = PostResult.validationError m) ∧
      (update_customer file cid n sd care ph ad em st no now).file = file ∧
      (update_customer file cid n sd care ph ad em st no now).saves = 0) ∧
    (create_customer Option.none "0001" "A" "" "" "12345" "" "" "" "" "t").res
      = PostResult.validationError "電話番号の形式が不正です（例：090-1234-5678）" ∧
    (create_customer Option.none "0001" "A" "" "" "090-1234-5678" "" "" "" "" "t").res
      = PostResult.redirect := by
  refine ⟨?_, rfl, rfl⟩
  intro file cid n sd care ph ad em st no now h
  by_cases hb : (ph != "" && !(PHONE_RE_match ph)) = true
  · have hc : create_customer file cid n sd care ph ad em st no now =
        ⟨PostResult.validationError "電話番号の形式が不正です（例：090-1234-5678）", file, 0⟩ := by
      simp only [create_customer, hb, if_true]
    have hu : update_customer file cid n sd care ph ad em st no now =
        ⟨PostResult.validationError "電話番号の形式が不正です", file, 0⟩ := by
      simp only [update_customer, hb, if_true]
    rw [hc, hu]
    exact ⟨⟨_, rfl⟩, rfl, rfl, ⟨_, rfl⟩, rfl, rfl⟩
  · have hb' : (ph != "" && !(PHONE_RE_match ph)) = false := by
      revert hb
      cases ph != "" && !(PHONE_RE_match ph) <;> simp
    have hem : em ≠ "" ∧ EMAIL_RE_match em = false := by
      rcases h with hph | hem
      · exact absurd (phone_cond_true hph.1 hph.2) (by rw [hb']; simp)
      · exact hem
    have hce := email_cond_true hem.1 hem.2
    have hc : create_customer file cid n sd care ph ad em st no now =
        ⟨PostResult.validationError "メールアドレスの形式が不正です（例：name@example.com）",
         file, 0⟩ := by
      simp only [create_customer, hb', Bool.false_eq_true, if_false, hce, if_true]
    have hu : update_customer file cid n sd care ph ad em st no now =
        ⟨PostResult.validationError "メールアドレスの形式が不正です", file, 0⟩ := by
      simp only [update_customer, hb', Bool.false_eq_true, if_false, hce, if_true]
    rw [hc, hu]
    exact ⟨⟨_, rfl⟩, rfl, rfl, ⟨_, rfl⟩, rfl, rfl⟩

/-- Closed instance of `C4_validation_gating`: phone `"12345"` on a fresh
file yields a validation error without any save. -/
theorem C4_validation_gating_witness :
    (∃ m, (create_customer Option.none "0001" "A" "" "" "12345" "" "" "" "" "t").res
        = PostResult.validationError m) ∧
    (create_customer Option.none "0001" "A" "" "" "12345" "" "" "" "" "t").file
      = Option.none ∧
    (create_customer Option.none "0001" "A" "" "" "12345" "" "" "" "" "t").saves = 0 := by
  have h := C4_validation_gating.1 Option.none "0001" "A" "" "" "12345" "" "" "" "" "t"
    (Or.inl ⟨by decide, by decide⟩)
  exact ⟨h.1, h.2.1, h.2.2.1⟩

theorem upsert_ws_ne_nil (ws : List Row) (vals : List CellVal) (cid : String) :
    upsert_ws ws vals cid ≠ [] := by
  unfold upsert_ws
  cases hf : find_row_by_customer_id ws cid with
  | none => simp
  | some r =>
    have hb := find_row_bounds ws cid r hf
    intro hcontra
    have hlen := congrArg List.length hcontra
    rw [List.length_set] at hlen
    simp only [List.length_nil] at hlen
    omega

theorem upsert_ws_drop (ws : List Row) (vals : List CellVal) (cid : String)
    (hne : ws ≠ []) :
    (upsert_ws ws vals cid).drop 1 = upsertData (ws.drop 1) vals cid := by
  cases ws with
  | nil => exact absurd rfl hne
  | cons h t =>
    unfold upsert_ws find_row_by_customer_id upsertData
    simp only [List.drop_succ_cons, List.drop_zero]
    cases hf : findData cid t with
    | none => rfl
    | some i => rfl

theorem findData_cons (cid : String) (row : Row) (rest : List Row) :
    findData cid (row :: rest)
      = if rowKeyMatches cid row then some 0 else (findData cid rest).map (· + 1) := rfl

theorem upsertData_cons_nomatch {cid : String} {row : Row} (rest : List Row)
    (vals : List CellVal) (hm : rowKeyMatches cid row = false) :
    upsertData (row :: rest) vals cid = row :: upsertData rest vals cid := by
  unfold upsertData
  rw [findData_cons]
  simp only [hm, Bool.false_eq_true, if_false]
  cases hf : findData cid rest with
  | none => rfl
  | some i => rfl

theorem filter_upsertData (vals : List CellVal) (cid : String)
    (hw : ∀ row : Row, rowKeyMatches cid (setFmtA (overwriteRow row vals)) = true) :
    ∀ d : List Row, d.countP (rowKeyMatches cid) ≤ 1 →
      ∃ old : Row, (upsertData d vals cid).filter (rowKeyMatches cid)
          = [setFmtA (overwriteRow old vals)] := by
  intro d
  induction d with
  | nil =>
    intro _
    refine ⟨[], ?_⟩
    show (([] : List Row) ++ [setFmtA (freshRow vals)]).filter _ = _
    rw [freshRow_eq, List.nil_append, List.filter_cons, if_pos (hw [])]
    rfl
  | cons row rest ih =>
    intro hc
    by_cases hm : rowKeyMatches cid row = true
    · have hup : upsertData (row :: rest) vals cid
          = setFmtA (overwriteRow row vals) :: rest := by
        unfold upsertData findData
        simp only [hm, if_true]
        rfl
      rw [hup]
      have hrest0 : rest.countP (rowKeyMatches cid) = 0 := by
        rw [List.countP_cons] at hc
        simp only [hm, if_true] at hc
        omega
      have hfil : rest.filter (rowKeyMatches cid) = [] :=
        List.filter_eq_nil_iff.mpr (by
          intro a ha
          have := (List.countP_eq_zero.mp hrest0) a ha
          simpa using this)
      refine ⟨row, ?_⟩
      rw [List.filter_cons, if_pos (hw row), hfil]
    · have hm' : rowKeyMatches cid row = false := by
        revert hm; cases rowKeyMatches cid row <;> simp
      rw [upsertData_cons_nomatch rest vals hm']
      have hc' : rest.countP (rowKeyMatches cid) ≤ 1 := by
        rw [List.countP_cons] at hc
        omega
      obtain ⟨old, hold⟩ := ih hc'
      refine ⟨old, ?_⟩
      rw [List.filter_cons, if_neg (by rw [hm']; simp), hold]

theorem rowKeyMatches_written (cid : String) (hid : pyStrip cid = cid)
    (rest : List CellVal) (row : Row) :
    rowKeyMatches cid (setFmtA (overwriteRow row (CellVal.str cid :: rest))) = true := by
  unfold rowKeyMatches
  have h0 : getCellVal (setFmtA (overwriteRow row (CellVal.str cid :: rest))) 1
      = CellVal.str cid := by
    rw [getCellVal_setFmtA]
    have h := getCellVal_overwriteRow (CellVal.str cid :: rest) row 0 (by simp)
    simpa using h
  rw [h0]
  show (pyStrip cid == cid) = true
  rw [hid]
  simp

/-- C7 counterexample: with the identifier `" 1 "` (surrounding spaces),
calling `create_customer` twice with identical fields yields two rows
whose identifier cell is `" 1 "`, because the stored cell is compared
trimmed against the untrimmed form input on the second call. -/
theorem C7_double_create_duplicate_counterexample :
    ((((create_customer
          (create_customer (some ⟨some [headerRow]⟩)
            " 1 " "A" "" "" "" "" "" "" "" "t1").file
          " 1 " "A" "" "" "" "" "" "" "" "t2").file.getD
        ⟨Option.none⟩).customers.getD []).drop 1).countP
      (fun row => getCellVal row 1 == CellVal.str " 1 ") = 2 := by
  decide

/-- C7 (amended): for an identifier without surrounding whitespace, on a
table holding at most one row whose trimmed identifier cell equals it,
calling `create_customer` twice with the same validated fields leaves
exactly one matching row, whose eleven cells are the submitted values with
the second call's timestamp and the derived edit link, identifier cell
text-typed; under a monotone clock the final timestamp is no earlier than
the first call's. -/
theorem C7_upsert_idempotent (ws : List Row)
    (cid n sd care ph ad em st no now1 now2 : String)
    (hp : ph = "" ∨ PHONE_RE_match ph = true)
    (he : em = "" ∨ EMAIL_RE_match em = true)
    (hid : pyStrip cid = cid)
    (hcount : (ws.drop 1).countP (rowKeyMatches cid) ≤ 1)
    (hts : now1 ≤ now2) :
    ∃ ws2 row1,
      (create_customer
        (create_customer (some ⟨some ws⟩) cid n sd care ph ad em st no now1).file
        cid n sd care ph ad em st no now2).file = some ⟨some ws2⟩ ∧
      (ws2.drop 1).filter (rowKeyMatches cid) = [row1] ∧
      rowVals row1 =
        [CellVal.str cid, CellVal.str n, CellVal.str sd, CellVal.str care, CellVal.str ph,
         CellVal.str ad, CellVal.str em, CellVal.str st, CellVal.str no, CellVal.str now2,
         CellVal.str ("/customers/" ++ cid ++ "/edit")] ∧
      getCellFmt row1 1 = "@" ∧
      ∃ t, getCellVal row1 10 = CellVal.str t ∧ now1 ≤ t := by
  have hw1 : ∀ row : Row, rowKeyMatches cid
      (setFmtA (overwriteRow row (valuesList cid n sd care ph ad em st no now1))) = true :=
    fun row => rowKeyMatches_written cid hid _ row
  have hw2 : ∀ row : Row, rowKeyMatches cid
      (setFmtA (overwriteRow row (valuesList cid n sd care ph ad em st no now2))) = true :=
    fun row => rowKeyMatches_written cid hid _ row
  rw [create_customer_pass (some ⟨some ws⟩) cid n sd care ph ad em st no now1 hp he]
  have hws : wsOf (ensure_workbook (some ⟨some ws⟩)).wb = ws := rfl
  rw [hws]
  rw [create_customer_pass
    (some ⟨some (upsert_ws ws (valuesList cid n sd care ph ad em st no now1) cid)⟩)
    cid n sd care ph ad em st no now2 hp he]
  have hws1 : wsOf (ensure_workbook (some ⟨some
      (upsert_ws ws (valuesList cid n sd care ph ad em st no now1) cid)⟩)).wb
      = upsert_ws ws (valuesList cid n sd care ph ad em st no now1) cid := rfl
  rw [hws1]
  have hcount1 : ((upsert_ws ws (valuesList cid n sd care ph ad em st no now1) cid).drop
      1).countP (rowKeyMatches cid) ≤ 1 := by
    cases ws with
    | nil =>
      have : (upsert_ws [] (valuesList cid n sd care ph ad em st no now1) cid).drop 1
          = [] := rfl
      rw [this]
      simp
    | cons h t =>
      rw [upsert_ws_drop _ _ _ (by simp)]
      obtain ⟨old, hold⟩ := filter_upsertData _ cid hw1 ((h :: t).drop 1) hcount
      rw [List.countP_eq_length_filter, hold]
      simp
  obtain ⟨old2, hold2⟩ := filter_upsertData _ cid hw2
    ((upsert_ws ws (valuesList cid n sd care ph ad em st no now1) cid).drop 1) hcount1
  have hdrop2 := upsert_ws_drop
    (upsert_ws ws (valuesList cid n sd care ph ad em st no now1) cid)
    (valuesList cid n sd care ph ad em st no now2) cid
    (upsert_ws_ne_nil ws (valuesList cid n sd care ph ad em st no now1) cid)
  have hrv : rowVals (setFmtA (overwriteRow old2
      (valuesList cid n sd care ph ad em st no now2))) =
      [CellVal.str cid, CellVal.str n, CellVal.str sd, CellVal.str care, CellVal.str ph,
       CellVal.str ad, CellVal.str em, CellVal.str st, CellVal.str no, CellVal.str now2,
       CellVal.str ("/customers/" ++ cid ++ "/edit")] :=
    rowVals_written old2 _ _ _ _ _ _ _ _ _ _ _
  refine ⟨upsert_ws (upsert_ws ws (valuesList cid n sd care ph ad em st no now1) cid)
      (valuesList cid n sd care ph ad em st no now2) cid,
    setFmtA (overwriteRow old2 (valuesList cid n sd care ph ad em st no now2)),
    rfl, ?_, hrv, getCellFmt_setFmtA_one _, now2, ?_, hts⟩
  · rw [hdrop2, hold2]
  · have h10 := congrArg (fun l => l.getD 9 CellVal.none) hrv
    simpa [rowVals] using h10

/-- Closed instance of `C7_upsert_idempotent` on a fresh table with
identifier `"0001"`. -/
theorem C7_upsert_idempotent_witness :
    ∃ ws2 row1,
      (create_customer
        (create_customer (some ⟨some [headerRow]⟩) "0001" "A" "" "" "" "" "" "" "" "t").file
        "0001" "A" "" "" "" "" "" "" "" "t").file = some ⟨some ws2⟩ ∧
      (ws2.drop 1).filter (rowKeyMatches "0001") = [row1] ∧
      rowVals row1 =
        [CellVal.str "0001", CellVal.str "A", CellVal.str "", CellVal.str "", CellVal.str "",
         CellVal.str "", CellVal.str "", CellVal.str "", CellVal.str "", CellVal.str "t",
         CellVal.str ("/customers/" ++ "0001" ++ "/edit")] ∧
      getCellFmt row1 1 = "@" ∧
      ∃ t, getCellVal row1 10 = CellVal.str t ∧ "t" ≤ t :=
  C7_upsert_idempotent [headerRow] "0001" "A" "" "" "" "" "" "" "" "t" "t"
    (Or.inl rfl) (Or.inl rfl) (by decide) (by decide) (le_refl _)

theorem dropDigits_eq_some : ∀ (n : Nat) (cs r : List Char),
    dropDigits n cs = some r ↔
      ∃ ds, cs = ds ++ r ∧ ds.length = n ∧ ∀ c ∈ ds, c.isDigit = true := by
  intro n
  induction n with
  | zero =>
    intro cs r
    constructor
    · intro h
      have hcs : cs = r := by simpa [dropDigits] using h
      exact ⟨[], by simpa using hcs, rfl, by simp⟩
    · rintro ⟨ds, hcs, hlen, _⟩
      have hds : ds = [] := List.length_eq_zero.mp hlen
      subst hds
      simpa [dropDigits] using hcs
  | succ n ih =>
    intro cs r
    cases cs with
    | nil =>
      constructor
      · intro h
        exact absurd h (by simp [dropDigits])
      · rintro ⟨ds, hcs, hlen, _⟩
        have hl := congrArg List.length hcs
        simp only [List.length_nil, List.length_append] at hl
        omega
    | cons c cs' =>
      by_cases hc : c.isDigit = true
      · rw [show dropDigits (n + 1) (c :: cs') = dropDigits n cs' from by
          simp [dropDigits, hc]]
        rw [ih cs' r]
        constructor
        · rintro ⟨ds, hcs, hlen, hdig⟩
          refine ⟨c :: ds, by rw [hcs]; rfl, by simp [hlen], ?_⟩
          intro x hx
          rcases List.mem_cons.mp hx with rfl | hx'
          · exact hc
          · exact hdig x hx'
        · rintro ⟨ds, hcs, hlen, hdig⟩
          cases ds with
          | nil => simp at hlen
          | cons d ds' =>
            rw [List.cons_append, List.cons.injEq] at hcs
            refine ⟨ds', hcs.2, by simpa using hlen, ?_⟩
            intro x hx
            exact hdig x (List.mem_cons_of_mem d hx)
      · rw [show dropDigits (n + 1) (c :: cs') = Option.none from by
          simp [dropDigits, hc]]
        constructor
        · intro h
          exact absurd h (by simp)
        · rintro ⟨ds, hcs, hlen, hdig⟩
          cases ds with
          | nil => simp at hlen
          | cons d ds' =>
            rw [List.cons_append, List.cons.injEq] at hcs
            exact absurd (hcs.1 ▸ hdig d (by simp)) hc

theorem optHyph_mem (cs r2 : List Char) :
    r2 ∈ optHyph cs ↔ ∃ h, (h = [] ∨ h = ['-']) ∧ cs = h ++ r2 := by
  cases cs with
  | nil =>
    constructor
    · intro hm
      have : r2 = [] := by simpa [optHyph] using hm
      subst this
      exact ⟨[], Or.inl rfl, rfl⟩
    · rintro ⟨h, hh, hcs⟩
      rcases hh with rfl | rfl
      · rw [List.nil_append] at hcs
        subst hcs
        simp [optHyph]
      · exact absurd hcs (by simp)
  | cons c rest =>
    show r2 ∈ (if c = '-' then [rest, c :: rest] else [c :: rest]) ↔ _
    by_cases hc : c = '-'
    · subst hc
      rw [if_pos rfl]
      constructor
      · intro hm
        rcases (by simpa using hm : r2 = rest ∨ r2 = '-' :: rest) with rfl | rfl
        · exact ⟨['-'], Or.inr rfl, rfl⟩
        · exact ⟨[], Or.inl rfl, rfl⟩
      · rintro ⟨h, hh, hcs⟩
        rcases hh with rfl | rfl
        · rw [List.nil_append] at hcs
          subst hcs
          simp
        · rw [List.cons_append, List.nil_append, List.cons.injEq] at hcs
          rw [hcs.2]
          simp
    · rw [if_neg hc]
      constructor
      · intro hm
        have : r2 = c :: rest := by simpa using hm
        subst this
        exact ⟨[], Or.inl rfl, rfl⟩
      · rintro ⟨h, hh, hcs⟩
        rcases hh with rfl | rfl
        · rw [List.nil_append] at hcs
          subst hcs
          simp
        · rw [List.cons_append, List.nil_append, List.cons.injEq] at hcs
          exact absurd hcs.1 hc

theorem optMap_getD {α : Type} (o : Option α) (f : α → Bool) :
    ((o.map f).getD false = true) ↔ ∃ x, o = some x ∧ f x = true := by
  cases o <;> simp

theorem phoneCore_iff (cs : List Char) :
    phoneCoreList cs = true ↔
      ∃ g1 h1 g2 h2 g3 : List Char,
        cs = '0' :: (g1 ++ (h1 ++ (g2 ++ (h2 ++ g3)))) ∧
        (1 ≤ g1.length ∧ g1.length ≤ 4 ∧ ∀ c ∈ g1, c.isDigit = true) ∧
        (h1 = [] ∨ h1 = ['-']) ∧
        (1 ≤ g2.length ∧ g2.length ≤ 4 ∧ ∀ c ∈ g2, c.isDigit = true) ∧
        (h2 = [] ∨ h2 = ['-']) ∧
        (g3.length = 4 ∧ ∀ c ∈ g3, c.isDigit = true) := by
  cases cs with
  | nil =>
    constructor
    · intro h
      exact absurd h (by simp [phoneCoreList])
    · rintro ⟨g1, h1, g2, h2, g3, hcs, _⟩
      exact absurd hcs (by simp)
  | cons c r0 =>
    simp only [phoneCoreList]
    by_cases hc : c = '0'
    · subst hc
      rw [if_pos rfl]
      constructor
      · intro h
        obtain ⟨i, hi, hF⟩ := List.any_eq_true.mp h
        rw [optMap_getD] at hF
        obtain ⟨r1, hd1, hF1⟩ := hF
        obtain ⟨r2, hmem2, hF2⟩ := List.any_eq_true.mp hF1
        obtain ⟨j, hj, hF3⟩ := List.any_eq_true.mp hF2
        rw [optMap_getD] at hF3
        obtain ⟨r3, hd2, hF4⟩ := hF3
        obtain ⟨r4, hmem4, hF5⟩ := List.any_eq_true.mp hF4
        rw [beq_iff_eq] at hF5
        obtain ⟨g1, hr0, hg1len, hg1d⟩ := (dropDigits_eq_some _ _ _).mp hd1
        obtain ⟨h1, hh1, hr1⟩ := (optHyph_mem _ _).mp hmem2
        obtain ⟨g2, hr2, hg2len, hg2d⟩ := (dropDigits_eq_some _ _ _).mp hd2
        obtain ⟨h2, hh2, hr3⟩ := (optHyph_mem _ _).mp hmem4
        obtain ⟨g3, hr4, hg3len, hg3d⟩ := (dropDigits_eq_some _ _ _).mp hF5
        have hi' := List.mem_range.mp hi
        have hj' := List.mem_range.mp hj
        refine ⟨g1, h1, g2, h2, g3, ?_, ⟨by omega, by omega, hg1d⟩, hh1,
          ⟨by omega, by omega, hg2d⟩, hh2, hg3len, hg3d⟩
        rw [hr0, hr1, hr2, hr3, hr4]
        simp
      · rintro ⟨g1, h1, g2, h2, g3, hcs, ⟨hg1a, hg1b, hg1d⟩, hh1,
          ⟨hg2a, hg2b, hg2d⟩, hh2, hg3l, hg3d⟩
        have hr0eq : r0 = g1 ++ (h1 ++ (g2 ++ (h2 ++ g3))) := by
          injection hcs
        apply List.any_eq_true.mpr
        refine ⟨g1.length - 1, List.mem_range.mpr (by omega), ?_⟩
        rw [optMap_getD]
        refine ⟨h1 ++ (g2 ++ (h2 ++ g3)), ?_, ?_⟩
        · rw [show g1.length - 1 + 1 = g1.length from by omega]
          exact (dropDigits_eq_some _ _ _).mpr ⟨g1, hr0eq, rfl, hg1d⟩
        · apply List.any_eq_true.mpr
          refine ⟨g2 ++ (h2 ++ g3), (optHyph_mem _ _).mpr ⟨h1, hh1, rfl⟩, ?_⟩
          apply List.any_eq_true.mpr
          refine ⟨g2.length - 1, List.mem_range.mpr (by omega), ?_⟩
          rw [optMap_getD]
          refine ⟨h2 ++ g3, ?_, ?_⟩
          · rw [show g2.length - 1 + 1 = g2.length from by omega]
            exact (dropDigits_eq_some _ _ _).mpr ⟨g2, rfl, rfl, hg2d⟩
          · apply List.any_eq_true.mpr
            refine ⟨g3, (optHyph_mem _ _).mpr ⟨h2, hh2, rfl⟩, ?_⟩
            rw [beq_iff_eq]
            exact (dropDigits_eq_some _ _ _).mpr ⟨g3, by simp, hg3l, hg3d⟩
    · rw [if_neg hc]
      constructor
      · intro h
        exact absurd h (by simp)
      · rintro ⟨g1, h1, g2, h2, g3, hcs, _⟩
        rw [List.cons.injEq] at hcs
        exact absurd hcs.1 hc

theorem getLast?_decomp {α : Type} : ∀ (l : List α) (c : α),
    l.getLast? = some c → l.dropLast ++ [c] = l := by
  intro l
  induction l with
  | nil => intro c h; simp at h
  | cons a l' ih =>
    intro c h
    cases l' with
    | nil =>
      have : a = c := by simpa using h
      subst this
      rfl
    | cons b l'' =>
      have h' : (b :: l'').getLast? = some c := by
        rw [← h]
        rfl
      have := ih c h'
      calc (a :: b :: l'').dropLast ++ [c]
          = a :: ((b :: l'').dropLast ++ [c]) := rfl
        _ = a :: (b :: l'') := by rw [this]

theorem PHONE_RE_match_iff (s : String) :
    PHONE_RE_match s = true ↔ PhoneShape s := by
  unfold PHONE_RE_match pyMatchDollar PhoneShape
  constructor
  · intro h
    rw [Bool.or_eq_true] at h
    rcases h with h | h
    · obtain ⟨g1, h1, g2, h2, g3, hcs, c1, c2, c3, c4, c5⟩ := (phoneCore_iff _).mp h
      refine ⟨g1, h1, g2, h2, g3, [], ?_, c1, c2, c3, c4, c5, Or.inl rfl⟩
      rw [hcs]
      simp [List.append_assoc]
    · cases hl : s.data.getLast? with
      | none => rw [hl] at h; simp at h
      | some c =>
        rw [hl] at h
        rw [Bool.and_eq_true, beq_iff_eq] at h
        obtain ⟨hcnl, hcore⟩ := h
        subst hcnl
        obtain ⟨g1, h1, g2, h2, g3, hdl, c1, c2, c3, c4, c5⟩ := (phoneCore_iff _).mp hcore
        refine ⟨g1, h1, g2, h2, g3, ['\n'], ?_, c1, c2, c3, c4, c5, Or.inr rfl⟩
        have hdec := getLast?_decomp s.data '\n' hl
        rw [← hdec, hdl]
        simp [List.append_assoc]
  · rintro ⟨g1, h1, g2, h2, g3, nl, hcs, c1, c2, c3, c4, c5, hnl⟩
    rw [Bool.or_eq_true]
    rcases hnl with rfl | rfl
    · left
      apply (phoneCore_iff _).mpr
      refine ⟨g1, h1, g2, h2, g3, ?_, c1, c2, c3, c4, c5⟩
      rw [hcs]
      simp [List.append_assoc]
    · right
      have hdata : s.data = ('0' :: (g1 ++ (h1 ++ (g2 ++ (h2 ++ g3))))) ++ ['\n'] := by
        rw [hcs]
        simp [List.append_assoc]
      rw [hdata, List.getLast?_concat]
      rw [Bool.and_eq_true, beq_iff_eq]
      refine ⟨rfl, ?_⟩
      rw [List.dropLast_concat]
      apply (phoneCore_iff _).mpr
      exact ⟨g1, h1, g2, h2, g3, rfl, c1, c2, c3, c4, c5⟩

/-- C3 counterexample: `"11-1234-5678"` — the shape the claim says is
accepted without a leading 0 — is rejected, because the pattern's leading
`0` is mandatory. -/
theorem C3_phone_no_leading_zero_rejected :
    ValidatePhone "11-1234-5678" = false := by decide

/-- C3 (amended): the phone check accepts a string iff it is empty or
consists of a mandatory leading `0`, one to four digits, an optional
hyphen, one to four digits, an optional hyphen and exactly four digits,
optionally followed by one trailing newline (the `$` anchor of `re.match`
also matches there); it is a total function, so it never raises. Strings
without the leading `0`, such as `"11-1234-5678"`, are rejected. -/
theorem C3_validate_phone_iff (s : String) :
    ValidatePhone s = true ↔ (s = "" ∨ PhoneShape s) := by
  unfold ValidatePhone
  rw [Bool.or_eq_true, beq_iff_eq, PHONE_RE_match_iff]
